import Mathlib

/-!
Verification of the automaker Z.ai GLM provider core: a shallow embedding of
the command safety filter, the built-in tool executor, the MCP connection
manager and the streaming completion loop of
`apps/server/src/providers/glm-provider.ts` (which also contains the
`glm-tool-executor` and `glm-mcp-client` modules) into Lean, together with
theorems settling the frozen claims about them.

JavaScript strings are modelled as Lean `String` (a list of characters); the
commands and file contents in question are ASCII, where the character-wise
`jsToLower` below agrees with JavaScript `toLowerCase`.
-/

namespace AutomakerZ

/-! ## JavaScript string primitives -/

/-- JavaScript `a || b` restricted to string-or-undefined values: an
`Option String` is `none` for `undefined`; a string is falsy iff empty.
`a || b` evaluates to `a` when `a` is truthy and to the value of `b`
otherwise. -/
def jsOr : Option String → Option String → Option String
  | some s, b => if s = "" then b else some s
  | none, b => b

/-- Truthiness test for a string-or-undefined value: JavaScript `!x` is true
for `undefined` and for the empty string. -/
def jsFalsy : Option String → Bool
  | none => true
  | some s => s = ""

/-- Find the first occurrence of `pat` in `s`: returns `some (b, a)` with
`s = b ++ pat ++ a` split at the leftmost match, `none` when `pat` does not
occur in `s`. This is the search both `String.prototype.includes` and
`String.prototype.replace` (with a string pattern) perform. -/
def findFirst : List Char → List Char → Option (List Char × List Char)
  | [], pat => if pat = [] then some ([], []) else none
  | c :: rest, pat =>
    if pat.isPrefixOf (c :: rest) then some ([], (c :: rest).drop pat.length)
    else (findFirst rest pat).map fun p => (c :: p.1, p.2)

/-- JavaScript `s.includes(pat)`. -/
def jsIncludes (s pat : String) : Bool :=
  (findFirst s.toList pat.toList).isSome

/-- JavaScript `s.toLowerCase()` on ASCII strings, character by character. -/
def jsToLower (s : String) : String :=
  String.mk (s.toList.map Char.toLower)

/-- The `GetSubstitution` step of `String.prototype.replace` for a string
pattern (no capture groups): in the replacement, `$$` stands for a dollar
sign, `$&` for the matched substring, a dollar followed by a backquote
(character 96) for the part before the match, and a dollar followed by a
quote (character 39) for the part after the match; any other dollar is
literal. -/
def getSubstitution (matched before after : List Char) : List Char → List Char
  | [] => []
  | [c] => [c]
  | c :: d :: rest =>
    if c = '$' then
      if d = '$' then '$' :: getSubstitution matched before after rest
      else if d = '&' then matched ++ getSubstitution matched before after rest
      else if d = Char.ofNat 96 then before ++ getSubstitution matched before after rest
      else if d = Char.ofNat 39 then after ++ getSubstitution matched before after rest
      else '$' :: getSubstitution matched before after (d :: rest)
    else c :: getSubstitution matched before after (d :: rest)

/-- JavaScript `s.replace(pat, repl)` with string arguments: replace the
first occurrence of `pat`, expanding dollar patterns in `repl`; return `s`
unchanged when `pat` does not occur. -/
def jsReplace (s pat repl : String) : String :=
  match findFirst s.toList pat.toList with
  | none => s
  | some (b, a) => String.mk (b ++ getSubstitution pat.toList b a repl.toList ++ a)

/-! ## Command safety filter (`isDangerousCommand`) -/

/-- The result shape of `isDangerousCommand`. -/
structure DangerResult where
  dangerous : Bool
  reason : Option String
deriving DecidableEq, Repr

/-- `isDangerousCommand` from `glm-tool-executor`: lowercases the command and
tests the deny-list patterns with `includes`. The second rule tests the
mixed-case literal `kill -KILL` against the lowercased command, exactly as
the source does. -/
def isDangerousCommand (command : String) : DangerResult :=
  let lowerCmd := jsToLower command
  if jsIncludes lowerCmd "lsof" && (jsIncludes lowerCmd "kill" || jsIncludes lowerCmd "xargs") then
    ⟨true, some "Cannot use lsof to kill processes - may affect Automaker server"⟩
  else if jsIncludes lowerCmd "kill -9" || jsIncludes lowerCmd "kill -KILL" then
    ⟨true, some "Cannot use kill -9 - use gentler termination methods"⟩
  else if (jsIncludes lowerCmd "pkill" || jsIncludes lowerCmd "killall")
      && !jsIncludes lowerCmd "next" && !jsIncludes lowerCmd "node"
      && (jsIncludes lowerCmd "pkill -f" || jsIncludes lowerCmd "killall") then
    ⟨true, some "Cannot use broad kill commands - be more specific"⟩
  else if jsIncludes lowerCmd "rm -rf /" && !jsIncludes lowerCmd "rm -rf /." then
    ⟨true, some "Cannot remove root directory"⟩
  else if jsIncludes lowerCmd "npm run dev" && jsIncludes lowerCmd "&" then
    ⟨true, some "Cannot start background dev servers - use Automaker dev server feature instead"⟩
  else if (jsIncludes lowerCmd "npm start" || jsIncludes lowerCmd "npm run start")
      && jsIncludes lowerCmd "&" then
    ⟨true, some "Cannot start background servers - use Automaker dev server feature instead"⟩
  else ⟨false, none⟩

/-- Safety-Filter rule 1 as worded in the spec (case-insensitive): contains
`lsof` and (`kill` or `xargs`). -/
def specSafetyRule1 (command : String) : Bool :=
  let l := jsToLower command
  jsIncludes l "lsof" && (jsIncludes l "kill" || jsIncludes l "xargs")

/-- Safety-Filter rule 2 as worded in the spec (case-insensitive): contains
`kill -9` or `kill -KILL`. -/
def specSafetyRule2 (command : String) : Bool :=
  let l := jsToLower command
  jsIncludes l "kill -9" || jsIncludes l "kill -kill"

/-- Safety-Filter rule 3 as worded in the spec (case-insensitive): contains
`pkill` or `killall`, mentions neither `next` nor `node`, and contains
`pkill -f` or `killall`. -/
def specSafetyRule3 (command : String) : Bool :=
  let l := jsToLower command
  (jsIncludes l "pkill" || jsIncludes l "killall")
    && !jsIncludes l "next" && !jsIncludes l "node"
    && (jsIncludes l "pkill -f" || jsIncludes l "killall")

/-- Safety-Filter rule 4 as worded in the spec (case-insensitive): contains
`rm -rf /` and does not contain `rm -rf /.`. -/
def specSafetyRule4 (command : String) : Bool :=
  let l := jsToLower command
  jsIncludes l "rm -rf /" && !jsIncludes l "rm -rf /."

/-- Safety-Filter rule 5 as worded in the spec (case-insensitive): contains
`npm run dev`, `npm start` or `npm run start` together with a background
ampersand. -/
def specSafetyRule5 (command : String) : Bool :=
  let l := jsToLower command
  (jsIncludes l "npm run dev" || jsIncludes l "npm start" || jsIncludes l "npm run start")
    && jsIncludes l "&"

/-- A command matches the spec's Safety Filter when any of its five rules
matches. -/
def specMatchesAnyRule (command : String) : Bool :=
  specSafetyRule1 command || specSafetyRule2 command || specSafetyRule3 command
    || specSafetyRule4 command || specSafetyRule5 command

/-- C1: the command `kill -KILL 123` matches Safety-Filter rule 2 of the
spec, yet `isDangerousCommand` returns `dangerous := false` with no reason:
the code lowercases the command and then searches for the mixed-case literal
`kill -KILL`, a test that can never succeed. The spec is the evident intent
and the code a slip, so the claim fails on the code as written. -/
theorem safetyFilter_spec_rule_mismatch :
    specMatchesAnyRule "kill -KILL 123" = true ∧
    isDangerousCommand "kill -KILL 123" = ⟨false, none⟩ := by
  constructor <;> rfl

/-- C2: the command `sudo kill -KILL 4242` contains `kill -KILL`
case-insensitively (its lowercasing contains the lowercased pattern), yet
`isDangerousCommand` returns `dangerous := false`: the mixed-case literal
`kill -KILL` is compared against the lowercased command and never matches. -/
theorem killKILL_command_not_blocked :
    jsIncludes (jsToLower "sudo kill -KILL 4242") (jsToLower "kill -KILL") = true ∧
    isDangerousCommand "sudo kill -KILL 4242" = ⟨false, none⟩ := by
  constructor <;> rfl

/-! ## Correctness of the first-occurrence search -/

/-- `findFirst` is sound: a returned split is a decomposition of `s` at the
leftmost occurrence of `pat`. -/
theorem findFirst_sound (pat : List Char) :
    ∀ s b a : List Char, findFirst s pat = some (b, a) →
      s = b ++ pat ++ a ∧ ∀ b' a' : List Char, s = b' ++ pat ++ a' → b.length ≤ b'.length := by
  intro s
  induction s with
  | nil =>
    intro b a h
    by_cases hpat : pat = ([] : List Char)
    · subst hpat
      rw [findFirst, if_pos rfl] at h
      simp only [Option.some.injEq, Prod.mk.injEq] at h
      obtain ⟨rfl, rfl⟩ := h
      exact ⟨rfl, fun _ _ _ => Nat.zero_le _⟩
    · rw [findFirst, if_neg hpat] at h
      exact absurd h (by simp)
  | cons c rest ih =>
    intro b a h
    rw [findFirst] at h
    by_cases hpre : pat.isPrefixOf (c :: rest)
    · rw [if_pos hpre] at h
      simp only [Option.some.injEq, Prod.mk.injEq] at h
      obtain ⟨rfl, rfl⟩ := h
      have hprefix : pat <+: c :: rest := List.isPrefixOf_iff_prefix.mp hpre
      constructor
      · simpa using (List.prefix_iff_eq_append.mp hprefix).symm
      · intro b' a' _
        exact Nat.zero_le _
    · rw [if_neg hpre, Option.map_eq_some'] at h
      obtain ⟨⟨b0, a0⟩, hrec, heq⟩ := h
      simp only [Prod.mk.injEq] at heq
      obtain ⟨hb, ha⟩ := heq
      obtain ⟨hsplit, hmin⟩ := ih b0 a0 hrec
      subst hb
      subst ha
      constructor
      · simp [hsplit]
      · intro b' a' hdec
        cases b' with
        | nil =>
          exfalso
          apply hpre
          apply List.isPrefixOf_iff_prefix.mpr
          exact ⟨a', by simpa using hdec.symm⟩
        | cons c' b'' =>
          simp only [List.cons_append, List.cons.injEq] at hdec
          have := hmin b'' a' hdec.2
          simpa using Nat.succ_le_succ this

/-- `findFirst` succeeds exactly when `pat` occurs in `s`. -/
theorem findFirst_isSome_iff_occurs (pat : List Char) :
    ∀ s : List Char, (findFirst s pat).isSome = true ↔ pat <:+: s := by
  intro s
  induction s with
  | nil =>
    by_cases hpat : pat = ([] : List Char)
    · subst hpat
      rw [findFirst, if_pos rfl]
      simp
    · rw [findFirst, if_neg hpat]
      simp [hpat]
  | cons c rest ih =>
    by_cases hpre : pat.isPrefixOf (c :: rest)
    · rw [findFirst, if_pos hpre]
      simp only [Option.isSome_some, true_iff]
      exact (List.isPrefixOf_iff_prefix.mp hpre).isInfix
    · rw [findFirst, if_neg hpre, Option.isSome_map']
      rw [ih, List.infix_cons_iff]
      constructor
      · exact Or.inr
      · rintro (hp | hi)
        · exact absurd (List.isPrefixOf_iff_prefix.mpr hp) hpre
        · exact hi

/-- `jsIncludes` decides substring occurrence. -/
theorem jsIncludes_iff_occurs (s pat : String) :
    jsIncludes s pat = true ↔ pat.toList <:+: s.toList := by
  unfold jsIncludes
  exact findFirst_isSome_iff_occurs pat.toList s.toList

/-- A replacement string containing no dollar sign is substituted
literally. -/
theorem getSubstitution_no_dollar (matched before after : List Char) :
    ∀ repl : List Char, '$' ∉ repl → getSubstitution matched before after repl = repl := by
  intro repl
  induction repl with
  | nil => intro _; rfl
  | cons c rest ih =>
    intro h
    have hc : c ≠ '$' := fun e => h (by simp [e])
    cases rest with
    | nil => rfl
    | cons d rest2 =>
      have hstep : getSubstitution matched before after (c :: d :: rest2)
          = c :: getSubstitution matched before after (d :: rest2) := by
        simp [getSubstitution, hc]
      rw [hstep, ih (fun hm => h (List.mem_cons_of_mem _ hm))]

/-! ## Built-in tool executor: data model, `executeWrite`, `executeEdit` -/

/-- The `ToolResult` shape returned by every tool executor. -/
structure ToolResult where
  success : Bool
  output : String
  error : Option String
deriving DecidableEq, Repr

/-- The input mapping of the `edit` tool, with all alias keys the source
resolves (`file_path || path || file`, `old_string || old || find`,
`new_string || new || replace`); `none` is an absent key. -/
structure EditInput where
  file_path : Option String
  path : Option String
  file : Option String
  old_string : Option String
  old : Option String
  find : Option String
  new_string : Option String
  new : Option String
  replace : Option String
deriving DecidableEq, Repr

/-- An `edit` input that sets exactly the schema fields `path`,
`old_string`, `new_string`. -/
def mkEditInput (path old new : Option String) : EditInput :=
  ⟨none, path, none, old, none, none, new, none, none⟩

/-- The input mapping of the `write` tool (`file_path || path || file`,
`content || text || data`). -/
structure WriteInput where
  file_path : Option String
  path : Option String
  file : Option String
  content : Option String
  text : Option String
  data : Option String
deriving DecidableEq, Repr

/-- A `write` input that sets exactly the schema fields `path` and
`content`. -/
def mkWriteInput (path content : Option String) : WriteInput :=
  ⟨none, path, none, content, none, none⟩

/-- Error text of the edit tool's not-found branch. -/
def editNotFoundMsg : String :=
  "Could not find the specified text in the file. Make sure old_string matches exactly."

/-- `executeEdit` from `glm-tool-executor`, acting on the content of the
target file (the file is modelled by its content; `readFileSync` is assumed
to succeed — a read or write exception takes the catch branch to a failed
result, which no claim needs). Returns the tool result together with the
file content afterwards. The alias chains use JavaScript truthiness
(`jsOr`), the path check uses falsiness, and the old/new checks compare
against `undefined` exactly as the source does. -/
def executeEdit (input : EditInput) (content : String) : ToolResult × String :=
  let filePath := jsOr (jsOr input.file_path input.path) input.file
  let oldStr := jsOr (jsOr input.old_string input.old) input.find
  let newStr := jsOr (jsOr input.new_string input.new) input.replace
  if jsFalsy filePath then (⟨false, "", some "file_path is required"⟩, content)
  else
    match oldStr with
    | none => (⟨false, "", some "old_string is required"⟩, content)
    | some o =>
      match newStr with
      | none => (⟨false, "", some "new_string is required"⟩, content)
      | some n =>
        if !(jsIncludes content o) then
          (⟨false, "", some editNotFoundMsg⟩, content)
        else
          (⟨true, "Successfully edited " ++ filePath.getD "", none⟩, jsReplace content o n)

/-- `executeWrite` from `glm-tool-executor`. The filesystem (directory
creation plus `writeFileSync`) is an oracle `fs`; the second component
records the performed write as `(full path, content)`, `none` when nothing
was written. -/
def executeWrite (fs : String → String → Except String Unit) (input : WriteInput)
    (cwd : String) : ToolResult × Option (String × String) :=
  let filePath := jsOr (jsOr input.file_path input.path) input.file
  let content := jsOr (jsOr input.content input.text) input.data
  if jsFalsy filePath then (⟨false, "", some "file_path is required"⟩, none)
  else
    match content with
    | none => (⟨false, "", some "content is required"⟩, none)
    | some c =>
      let fp := filePath.getD ""
      let fullPath := if fp.toList.headD ' ' = '/' then fp else cwd ++ "/" ++ fp
      match fs fullPath c with
      | .ok _ => (⟨true, "Successfully wrote to " ++ fp, none⟩, some (fullPath, c))
      | .error e => (⟨false, "", some ("Failed to write file: " ++ e)⟩, none)

/-- C5 (amended): for truthy `path`, `old_string`, `new_string` inputs whose
`new_string` contains no dollar sign, `executeEdit` on a file content that
does not contain `old_string` fails with an error and leaves the content
unchanged, and on a content that does contain it succeeds and replaces
exactly the first (leftmost) occurrence of `old_string` by `new_string`.
(As literally stated the claim is false: an empty `old_string` or
`new_string` is falsy and resolves to a required-field error, and a
`new_string` with dollar patterns undergoes JavaScript replacement-pattern
expansion — see the counterexample.) -/
theorem edit_first_occurrence_behaviour
    (content p o n : String) (hp : p ≠ "") (ho : o ≠ "") (hn0 : n ≠ "")
    (hn : '$' ∉ n.toList) :
    (¬ o.toList <:+: content.toList →
        executeEdit (mkEditInput (some p) (some o) (some n)) content =
          (⟨false, "", some editNotFoundMsg⟩, content)) ∧
    (o.toList <:+: content.toList →
        ∃ b a : List Char,
          content.toList = b ++ o.toList ++ a ∧
          (∀ b' a' : List Char, content.toList = b' ++ o.toList ++ a' →
            b.length ≤ b'.length) ∧
          executeEdit (mkEditInput (some p) (some o) (some n)) content =
            (⟨true, "Successfully edited " ++ p, none⟩, String.mk (b ++ n.toList ++ a))) := by
  have hrun : executeEdit (mkEditInput (some p) (some o) (some n)) content =
      (if !(jsIncludes content o) then (⟨false, "", some editNotFoundMsg⟩, content)
       else (⟨true, "Successfully edited " ++ p, none⟩, jsReplace content o n)) := by
    simp [executeEdit, mkEditInput, jsOr, jsFalsy, hp, ho, hn0]
  constructor
  · intro hni
    have : jsIncludes content o = false := by
      cases hj : jsIncludes content o
      · rfl
      · exact absurd ((jsIncludes_iff_occurs content o).mp hj) hni
    rw [hrun, this]
    rfl
  · intro hi
    have hsome : (findFirst content.toList o.toList).isSome = true :=
      (findFirst_isSome_iff_occurs o.toList content.toList).mpr hi
    obtain ⟨⟨b, a⟩, hfind⟩ := Option.isSome_iff_exists.mp hsome
    obtain ⟨hsplit, hmin⟩ := findFirst_sound o.toList content.toList b a hfind
    refine ⟨b, a, hsplit, hmin, ?_⟩
    have hinc : jsIncludes content o = true := by
      unfold jsIncludes
      rw [hfind]
      rfl
    rw [hrun, hinc]
    simp only [Bool.not_true, if_neg, Bool.false_eq_true, not_false_iff]
    have : jsReplace content o n = String.mk (b ++ n.toList ++ a) := by
      unfold jsReplace
      rw [hfind]
      show String.mk (b ++ getSubstitution o.toList b a n.toList ++ a) = _
      rw [getSubstitution_no_dollar o.toList b a n.toList hn]
    rw [this]

/-- C5 witness: the amended theorem applied to content `xay`, path `f.txt`,
old `a`, new `b`. -/
theorem edit_first_occurrence_behaviour_witness :
    (("f.txt" : String) ≠ "" ∧ ("a" : String) ≠ "" ∧ ("b" : String) ≠ "" ∧
      '$' ∉ "b".toList) ∧
    ((¬ "a".toList <:+: "xay".toList →
        executeEdit (mkEditInput (some "f.txt") (some "a") (some "b")) "xay" =
          (⟨false, "", some editNotFoundMsg⟩, "xay")) ∧
     ("a".toList <:+: "xay".toList →
        ∃ b a : List Char,
          "xay".toList = b ++ "a".toList ++ a ∧
          (∀ b' a' : List Char, "xay".toList = b' ++ "a".toList ++ a' →
            b.length ≤ b'.length) ∧
          executeEdit (mkEditInput (some "f.txt") (some "a") (some "b")) "xay" =
            (⟨true, "Successfully edited " ++ "f.txt", none⟩,
              String.mk (b ++ "b".toList ++ a)))) :=
  ⟨⟨by decide, by decide, by decide, by decide⟩,
    edit_first_occurrence_behaviour "xay" "f.txt" "a" "b"
      (by decide) (by decide) (by decide) (by decide)⟩

/-- C5 counterexample: on content `ab`, editing `a` to the new string `$$`
produces `$b` (JavaScript expands `$$` to a single dollar), not the literal
splice `$$b` the claim describes, even though the content does contain the
old string. -/
theorem edit_dollar_replacement_counterexample :
    jsIncludes "ab" "a" = true ∧
    executeEdit (mkEditInput (some "f.txt") (some "a") (some "$$")) "ab" =
      (⟨true, "Successfully edited f.txt", none⟩, "$b") ∧
    ("$b" : String) ≠ "$$b" := by
  refine ⟨rfl, ?_, by decide⟩
  rfl

/-- C10: an explicitly supplied empty string is falsy and therefore treated
as a missing field by the alias chains: `write` with empty `content` fails
with `content is required` and writes nothing (for any filesystem), and
`edit` with empty `old_string` (or empty `new_string`) fails with the
corresponding required-field error and leaves the file content unchanged. -/
theorem empty_string_inputs_required_errors
    (fs : String → String → Except String Unit) (cwd p o n content : String)
    (hp : p ≠ "") (ho : o ≠ "") :
    executeWrite fs (mkWriteInput (some p) (some "")) cwd =
      (⟨false, "", some "content is required"⟩, none) ∧
    executeEdit (mkEditInput (some p) (some "") (some n)) content =
      (⟨false, "", some "old_string is required"⟩, content) ∧
    executeEdit (mkEditInput (some p) (some o) (some "")) content =
      (⟨false, "", some "new_string is required"⟩, content) := by
  refine ⟨?_, ?_, ?_⟩
  · simp [executeWrite, mkWriteInput, jsOr, jsFalsy, hp]
  · simp [executeEdit, mkEditInput, jsOr, jsFalsy, hp]
  · simp [executeEdit, mkEditInput, jsOr, jsFalsy, hp, ho]

/-- C10 witness: the theorem applied at path `f`, old `x`, new `y`, content
`hello`, an always-succeeding filesystem and working directory `/w`. -/
theorem empty_string_inputs_required_errors_witness :
    (("f" : String) ≠ "" ∧ ("x" : String) ≠ "") ∧
    (executeWrite (fun _ _ => Except.ok ()) (mkWriteInput (some "f") (some "")) "/w" =
      (⟨false, "", some "content is required"⟩, none) ∧
    executeEdit (mkEditInput (some "f") (some "") (some "y")) "hello" =
      (⟨false, "", some "old_string is required"⟩, "hello") ∧
    executeEdit (mkEditInput (some "f") (some "x") (some "")) "hello" =
      (⟨false, "", some "new_string is required"⟩, "hello")) :=
  ⟨⟨by decide, by decide⟩,
    empty_string_inputs_required_errors (fun _ _ => Except.ok ()) "/w" "f" "x" "y" "hello"
      (by decide) (by decide)⟩

/-! ## Streaming completion loop: history trimming -/

/-- A wire message of the completion request (`{role, content,
tool_call_id?}`); the trimming logic never inspects a message. -/
structure WireMessage where
  role : String
  content : String
  tool_call_id : Option String
deriving DecidableEq, Repr

/-- The history-trimming step of `executeQuery`: when more than 42 messages
have accumulated, keep `messages[0]` (the system message) followed by
`messages.slice(-40)` (the last 40 messages). -/
def trimMessages (messages : List WireMessage) : List WireMessage :=
  if messages.length > 42 then
    messages.take 1 ++ messages.drop (messages.length - 40)
  else messages

/-- C4: whenever the message list exceeds 42 entries, trimming yields
exactly 41 messages, the first of which is the original first (system)
message and the remaining 40 of which are the last 40 original messages (a
suffix of the original list); a list of at most 42 messages is left
untouched. -/
theorem trim_history_behaviour (msgs : List WireMessage) :
    (msgs.length > 42 →
      (trimMessages msgs).length = 41 ∧
      (trimMessages msgs).head? = msgs.head? ∧
      (trimMessages msgs).drop 1 = msgs.drop (msgs.length - 40) ∧
      ((trimMessages msgs).drop 1).length = 40 ∧
      ((trimMessages msgs).drop 1) <:+ msgs) ∧
    (msgs.length ≤ 42 → trimMessages msgs = msgs) := by
  constructor
  · intro h
    have htrim : trimMessages msgs = msgs.take 1 ++ msgs.drop (msgs.length - 40) := by
      unfold trimMessages
      rw [if_pos h]
    have htake : (msgs.take 1).length = 1 := by
      rw [List.length_take]
      omega
    have hdroplen : (msgs.drop (msgs.length - 40)).length = 40 := by
      rw [List.length_drop]
      omega
    have hdrop1 : (trimMessages msgs).drop 1 = msgs.drop (msgs.length - 40) := by
      rw [htrim]
      have hleft := List.drop_left (msgs.take 1) (msgs.drop (msgs.length - 40))
      rw [htake] at hleft
      exact hleft
    refine ⟨?_, ?_, hdrop1, ?_, ?_⟩
    · rw [htrim, List.length_append, htake, hdroplen]
    · rw [htrim]
      cases msgs with
      | nil => simp at h
      | cons m rest => rfl
    · rw [hdrop1, hdroplen]
    · rw [hdrop1]
      exact List.drop_suffix _ _
  · intro h
    unfold trimMessages
    rw [if_neg (by omega)]

/-- A history of 1 system message followed by 50 user messages. -/
def sampleHistory : List WireMessage :=
  ⟨"system", "You are a helpful coding agent", none⟩ ::
    (List.range 50).map fun i => ⟨"user", Nat.repr i, none⟩

/-- C4 witness: the theorem applied to 1 system message plus 50 accumulated
messages leaves exactly 41 messages with the system message first. -/
theorem trim_history_behaviour_witness :
    sampleHistory.length > 42 ∧
    (trimMessages sampleHistory).length = 41 ∧
    (trimMessages sampleHistory).head? = sampleHistory.head? :=
  ⟨by decide, ((trim_history_behaviour sampleHistory).1 (by decide)).1,
    ((trim_history_behaviour sampleHistory).1 (by decide)).2.1⟩

/-! ## Streaming completion loop: retry with exponential backoff -/

/-- `MAX_RETRIES` from `executeQuery`. -/
def MAX_RETRIES : Nat := 3

/-- `FETCH_TIMEOUT` from `executeQuery`: 2-minute per-attempt timeout in
milliseconds, armed before every single fetch attempt. -/
def FETCH_TIMEOUT : Nat := 120000

/-- Outcome of one `fetch` attempt: a response (status and body), or a
thrown transport error with its message (a per-attempt timeout surfaces
here as an abort error). -/
inductive FetchOutcome where
  | ok (status : Nat) (body : String)
  | fail (msg : String)

/-- One issued attempt: its 1-based number and the timeout armed for it. -/
structure AttemptRec where
  attempt : Nat
  timeoutMs : Nat
deriving DecidableEq, Repr

/-- Observable trace of the retry loop: the attempts issued in order, the
backoff delays waited between attempts in order, the response of the
successful attempt if any, and the last stored error. -/
structure RetryTrace where
  attempts : List AttemptRec
  delays : List Nat
  response : Option (Nat × String)
  lastError : Option String
deriving DecidableEq, Repr

/-- The retry `for` loop of `executeQuery` (`for attempt = 1 to MAX_RETRIES`):
try the fetch with the per-attempt timeout; on success break; on failure
store the error and, when further attempts remain (`attempt < MAX_RETRIES`),
wait `2 ^ attempt * 1000` milliseconds before the next attempt. The fuel
argument bounds the recursion and equals the number of remaining loop
iterations. -/
def runRetryAux (fetchOutcome : Nat → FetchOutcome) : Nat → Nat → Option String → RetryTrace
  | 0, _, lastErr => ⟨[], [], none, lastErr⟩
  | fuel + 1, attempt, lastErr =>
    match fetchOutcome attempt with
    | .ok status body => ⟨[⟨attempt, FETCH_TIMEOUT⟩], [], some (status, body), lastErr⟩
    | .fail msg =>
      if attempt < MAX_RETRIES then
        let t := runRetryAux fetchOutcome fuel (attempt + 1) (some msg)
        ⟨⟨attempt, FETCH_TIMEOUT⟩ :: t.attempts, 2 ^ attempt * 1000 :: t.delays,
          t.response, t.lastError⟩
      else ⟨[⟨attempt, FETCH_TIMEOUT⟩], [], none, some msg⟩

/-- The whole retry loop, starting at attempt 1 with no stored error. -/
def runRetry (fetchOutcome : Nat → FetchOutcome) : RetryTrace :=
  runRetryAux fetchOutcome MAX_RETRIES 1 none

/-- What `executeQuery` does right after the retry loop: with no response
it yields a terminal error event and returns; with a response the turn
proceeds. -/
inductive RetryVerdict where
  | terminalError (msg : String)
  | proceed (status : Nat) (body : String)
deriving DecidableEq, Repr

/-- The retry loop followed by the `if (!response)` check of
`executeQuery`, producing the terminal error event text
`Z.ai API connection failed after 3 attempts: <lastError.message or
Unknown error>` when every attempt failed. -/
def retryPhase (fetchOutcome : Nat → FetchOutcome) : RetryTrace × RetryVerdict :=
  let t := runRetry fetchOutcome
  match t.response with
  | none =>
    (t, .terminalError ("Z.ai API connection failed after 3 attempts: " ++
        (match t.lastError with
         | some m => if m = "" then "Unknown error" else m
         | none => "Unknown error")))
  | some (status, body) => (t, .proceed status body)

/-- A string with a nonempty left part of an append is nonempty. -/
theorem append_ne_empty_of_left (s t : String) (h : s ≠ "") : s ++ t ≠ "" := by
  intro he
  apply h
  apply String.ext
  have : (s ++ t).data = s.data ++ t.data := rfl
  have hdata : s.data ++ t.data = ([] : List Char) := by
    rw [← this, he]
  rcases List.append_eq_nil.mp hdata with ⟨h1, _⟩
  simp [h1]

/-- C3 (amended): when every fetch attempt fails at the transport level,
the loop issues exactly the attempts 1, 2, 3, each with the fixed 2-minute
timeout, waits the exponential backoff delays `2 ^ 1` and `2 ^ 2` seconds
(2s, 4s) between consecutive attempts — no delay follows the final attempt,
so an 8s wait never occurs — and then emits a terminal error event with a
nonempty message (never a silent empty turn). -/
theorem retry_all_fail_behaviour (fetchOutcome : Nat → FetchOutcome)
    (hfail : ∀ k, 1 ≤ k → k ≤ 3 → ∃ m, fetchOutcome k = .fail m) :
    (retryPhase fetchOutcome).1.attempts.map AttemptRec.attempt = [1, 2, 3] ∧
    (∀ r ∈ (retryPhase fetchOutcome).1.attempts, r.timeoutMs = 120000) ∧
    (retryPhase fetchOutcome).1.delays = [2 ^ 1 * 1000, 2 ^ 2 * 1000] ∧
    (retryPhase fetchOutcome).1.delays = [2000, 4000] ∧
    ∃ msg, (retryPhase fetchOutcome).2 = .terminalError msg ∧ msg ≠ "" := by
  obtain ⟨m1, h1⟩ := hfail 1 (by omega) (by omega)
  obtain ⟨m2, h2⟩ := hfail 2 (by omega) (by omega)
  obtain ⟨m3, h3⟩ := hfail 3 (by omega) (by omega)
  have htrace : runRetry fetchOutcome =
      ⟨[⟨1, FETCH_TIMEOUT⟩, ⟨2, FETCH_TIMEOUT⟩, ⟨3, FETCH_TIMEOUT⟩],
        [2000, 4000], none, some m3⟩ := by
    simp [runRetry, MAX_RETRIES, runRetryAux, h1, h2, h3]
  have hphase : retryPhase fetchOutcome =
      (⟨[⟨1, FETCH_TIMEOUT⟩, ⟨2, FETCH_TIMEOUT⟩, ⟨3, FETCH_TIMEOUT⟩],
         [2000, 4000], none, some m3⟩,
       .terminalError ("Z.ai API connection failed after 3 attempts: " ++
         (if m3 = "" then "Unknown error" else m3))) := by
    unfold retryPhase
    rw [htrace]
  refine ⟨?_, ?_, ?_, ?_, ?_⟩
  · rw [hphase]
    rfl
  · intro r hr
    rw [hphase] at hr
    simp only [List.mem_cons, List.not_mem_nil, or_false] at hr
    rcases hr with rfl | rfl | rfl <;> rfl
  · rw [hphase]
    show ([2000, 4000] : List Nat) = [2 ^ 1 * 1000, 2 ^ 2 * 1000]
    decide
  · rw [hphase]
  · refine ⟨"Z.ai API connection failed after 3 attempts: " ++
      (if m3 = "" then "Unknown error" else m3), ?_, ?_⟩
    · rw [hphase]
    · exact append_ne_empty_of_left _ _ (by decide)

/-- An environment where every fetch attempt fails with a connection
refusal. -/
def allFailNetwork : Nat → FetchOutcome := fun _ => .fail "ECONNREFUSED"

/-- C3 witness: the amended theorem applied to three consecutive connection
refusals. -/
theorem retry_all_fail_behaviour_witness :
    (∀ k, 1 ≤ k → k ≤ 3 → ∃ m, allFailNetwork k = .fail m) ∧
    ((retryPhase allFailNetwork).1.attempts.map AttemptRec.attempt = [1, 2, 3] ∧
     (∀ r ∈ (retryPhase allFailNetwork).1.attempts, r.timeoutMs = 120000) ∧
     (retryPhase allFailNetwork).1.delays = [2 ^ 1 * 1000, 2 ^ 2 * 1000] ∧
     (retryPhase allFailNetwork).1.delays = [2000, 4000] ∧
     ∃ msg, (retryPhase allFailNetwork).2 = .terminalError msg ∧ msg ≠ "") :=
  ⟨fun _ _ _ => ⟨"ECONNREFUSED", rfl⟩,
    retry_all_fail_behaviour allFailNetwork (fun _ _ _ => ⟨"ECONNREFUSED", rfl⟩)⟩

/-- C3 counterexample: with every attempt failing, the loop makes exactly
3 attempts but the waited backoff delays are 2000ms and 4000ms only — the
claimed 8-second wait never happens, because no delay follows the final
attempt. -/
theorem retry_no_8s_delay :
    (retryPhase allFailNetwork).1.attempts.length = 3 ∧
    (retryPhase allFailNetwork).1.delays = [2000, 4000] ∧
    8000 ∉ (retryPhase allFailNetwork).1.delays ∧
    (retryPhase allFailNetwork).1.delays ≠ [2000, 4000, 8000] := by
  refine ⟨rfl, rfl, by decide, by decide⟩

/-! ## MCP connection manager (`GlmMcpClient`) -/

/-- A tool descriptor as listed by an MCP server. -/
structure ToolInfo where
  name : String
  description : Option String
deriving DecidableEq, Repr

/-- A live connection (`MCPConnection` in the source): for the claims only
its tool list matters; client and transport handles are opaque. -/
structure MCPConnection where
  tools : List ToolInfo
deriving DecidableEq, Repr

/-- The `connections` map of the manager, in insertion (iteration) order. -/
abbrev Connections := List (String × MCPConnection)

/-- `Map.get` / first-match iteration over an association list. -/
def lookupBy {α : Type} : List (String × α) → String → Option α
  | [], _ => none
  | (k, v) :: rest, name => if k = name then some v else lookupBy rest name

/-- `Map.set`: replace the entry in place when the key exists, append a new
entry otherwise. -/
def setBy {α : Type} : List (String × α) → String → α → List (String × α)
  | [], name, v => [(name, v)]
  | (k, w) :: rest, name, v =>
    if k = name then (name, v) :: rest else (k, w) :: setBy rest name v

/-- `lookupBy` after `setBy`. -/
theorem lookupBy_setBy {α : Type} (l : List (String × α)) (k k' : String) (v : α) :
    lookupBy (setBy l k v) k' = if k = k' then some v else lookupBy l k' := by
  induction l with
  | nil => by_cases h : k = k' <;> simp [setBy, lookupBy, h]
  | cons p rest ih =>
    obtain ⟨k0, w⟩ := p
    by_cases h0 : k0 = k <;> by_cases h1 : k = k' <;> by_cases h2 : k0 = k' <;>
      simp_all [setBy, lookupBy]

/-- `isMcpTool`: linear scan across connections for any tool of that
name. -/
def isMcpTool (conns : Connections) (toolName : String) : Bool :=
  conns.any fun p => p.2.tools.any fun t => t.name = toolName

/-- `findServerForTool`: first server claiming the name. -/
def findServerForTool (conns : Connections) (toolName : String) : Option String :=
  (conns.find? fun p => p.2.tools.any fun t => t.name = toolName).map Prod.fst

/-- `getAllTools`: flatten all connected servers' tool lists, tagging each
tool with its owning server name. -/
def getAllTools (conns : Connections) : List (String × ToolInfo) :=
  conns.flatMap fun p => p.2.tools.map fun t => (p.1, t)

/-- A JSON value; tool inputs are JSON. -/
inductive Json where
  | null
  | bool (b : Bool)
  | num (n : Int)
  | str (s : String)
  | arr (elems : List Json)
  | obj (fields : List (String × Json))

/-- One content block of a remote MCP tool response. -/
structure ContentBlock where
  type : String
  text : Option String
deriving DecidableEq, Repr

/-- `callTool` of the manager: resolve the owning server, invoke the remote
tool (the `client.callTool` race against the 60s timeout is the oracle
`remote`, whose `error` covers both a rejection and a timeout), and collapse
the response's text blocks into one newline-joined output; any rejection
becomes `{success := false, error}`. -/
def callTool (conns : Connections)
    (remote : String → String → Json → Except String (List ContentBlock))
    (toolName : String) (args : Json) : ToolResult :=
  match findServerForTool conns toolName with
  | none => ⟨false, "", some ("Tool \"" ++ toolName ++ "\" not found in any MCP server")⟩
  | some serverName =>
    match lookupBy conns serverName with
    | none => ⟨false, "", some ("MCP server \"" ++ serverName ++ "\" not connected")⟩
    | some _ =>
      match remote serverName toolName args with
      | .error e => ⟨false, "", some e⟩
      | .ok content =>
        let textParts := (content.filter fun c => c.type = "text" && c.text.isSome).map
          fun c => c.text.getD ""
        ⟨true, String.intercalate "\n" textParts, none⟩

/-! ## Built-in tool dispatch (`executeTool`) -/

/-- The built-in cases of `executeTool`'s switch. -/
inductive BuiltinKind where
  | read
  | write
  | edit
  | bash
  | glob
  | grep
  | list
deriving DecidableEq, Repr

/-- The switch discriminator: `name.toLowerCase()` against the built-in
cases, with `ls` an alias of `list`. -/
def builtinFor (lower : String) : Option BuiltinKind :=
  if lower = "read" then some .read
  else if lower = "write" then some .write
  else if lower = "edit" then some .edit
  else if lower = "bash" then some .bash
  else if lower = "glob" then some .glob
  else if lower = "grep" then some .grep
  else if lower = "list" then some .list
  else if lower = "ls" then some .list
  else none

/-- The unknown-tool error text: built-in names followed by the currently
known MCP tool names, or `none configured` when that list renders empty. -/
def unknownToolMessage (name : String) (conns : Connections) : String :=
  let mcpToolNames := String.intercalate ", " ((getAllTools conns).map fun p => p.2.name)
  "Unknown tool: " ++ name ++
    ". Built-in tools: Read, Write, Edit, Bash, Glob, Grep, List. MCP tools: " ++
    (if mcpToolNames = "" then "none configured" else mcpToolNames)

/-- `executeTool` from `glm-tool-executor`: route MCP tools to `callTool`
(outside the try block — safe because `callTool` never throws), otherwise
run the switch inside a try/catch that converts any thrown error into a
failed `ToolResult`. The behaviours of the effectful sub-executors `read`,
`write`, `edit`, `bash`, `glob`, `grep`, `list` are the oracle `builtins`,
which may throw (return `Except.error`). -/
def executeTool (conns : Connections)
    (remote : String → String → Json → Except String (List ContentBlock))
    (builtins : BuiltinKind → Json → Except String ToolResult)
    (name : String) (input : Json) : ToolResult :=
  if isMcpTool conns name then callTool conns remote name input
  else
    match
      (match builtinFor (jsToLower name) with
       | some k => builtins k input
       | none => .ok ⟨false, "", some (unknownToolMessage name conns)⟩) with
    | .ok r => r
    | .error e => ⟨false, "", some e⟩

/-- `callTool` surfaces every failure with an error message set. -/
theorem callTool_failure_has_error (conns : Connections)
    (remote : String → String → Json → Except String (List ContentBlock))
    (toolName : String) (args : Json) :
    (callTool conns remote toolName args).success = false →
    (callTool conns remote toolName args).error.isSome = true := by
  unfold callTool
  split
  · intro _; rfl
  · split
    · intro _; rfl
    · split
      · intro _; rfl
      · intro h; simp at h

/-- C6: `executeTool` never throws — with any (possibly throwing) built-in
executors whose non-thrown failures carry an error message, its result is a
`ToolResult` whose failures always carry an error message; and a name that
is neither an MCP tool nor a built-in yields the error listing the built-in
tool names and the currently known MCP tool names (or `none configured`
when none render). -/
theorem executeTool_never_throws_unknown_listing (conns : Connections)
    (remote : String → String → Json → Except String (List ContentBlock))
    (builtins : BuiltinKind → Json → Except String ToolResult)
    (name : String) (input : Json)
    (hwf : ∀ k j r, builtins k j = .ok r → r.success = false → r.error.isSome = true) :
    ((executeTool conns remote builtins name input).success = false →
      (executeTool conns remote builtins name input).error.isSome = true) ∧
    (isMcpTool conns name = false → builtinFor (jsToLower name) = none →
      executeTool conns remote builtins name input =
        ⟨false, "", some (unknownToolMessage name conns)⟩ ∧
      ∃ suffix,
        unknownToolMessage name conns =
          "Unknown tool: " ++ name ++
            ". Built-in tools: Read, Write, Edit, Bash, Glob, Grep, List. MCP tools: " ++
            suffix ∧
        (getAllTools conns = [] → suffix = "none configured") ∧
        (String.intercalate ", " ((getAllTools conns).map fun p => p.2.name) ≠ "" →
          suffix = String.intercalate ", " ((getAllTools conns).map fun p => p.2.name))) := by
  constructor
  · unfold executeTool
    split
    · exact callTool_failure_has_error conns remote name input
    · cases hbk : builtinFor (jsToLower name) with
      | none =>
        intro _
        rfl
      | some k =>
        show (match builtins k input with
              | Except.ok r => r
              | Except.error e => (⟨false, "", some e⟩ : ToolResult)).success = false →
            (match builtins k input with
              | Except.ok r => r
              | Except.error e => (⟨false, "", some e⟩ : ToolResult)).error.isSome = true
        cases hb : builtins k input with
        | ok r => exact hwf k input r hb
        | error e =>
          intro _
          rfl
  · intro hmcp hbk
    constructor
    · unfold executeTool
      rw [hmcp, if_neg Bool.false_ne_true, hbk]
    · by_cases hnil : String.intercalate ", " ((getAllTools conns).map fun p => p.2.name) = ""
      · refine ⟨"none configured", ?_, fun _ => rfl, fun hne => absurd hnil hne⟩
        simp only [unknownToolMessage]
        rw [if_pos hnil]
      · refine ⟨String.intercalate ", " ((getAllTools conns).map fun p => p.2.name),
          ?_, ?_, fun _ => rfl⟩
        · simp only [unknownToolMessage]
          rw [if_neg hnil]
        · intro h0
          exact absurd (by rw [h0]; rfl) hnil

/-- C6 witness: the theorem applied to an unknown name `frobnicate`, no
connections, a failing remote and built-ins that report failures with error
text. -/
theorem executeTool_never_throws_unknown_listing_witness :
    (∀ k j r, (fun (_ : BuiltinKind) (_ : Json) =>
        (Except.ok (⟨false, "", some "disk full"⟩ : ToolResult) :
          Except String ToolResult)) k j = .ok r →
      r.success = false → r.error.isSome = true) ∧
    (((executeTool [] (fun _ _ _ => Except.error "remote down")
        (fun _ _ => Except.ok ⟨false, "", some "disk full"⟩)
        "frobnicate" Json.null).success = false →
      (executeTool [] (fun _ _ _ => Except.error "remote down")
        (fun _ _ => Except.ok ⟨false, "", some "disk full"⟩)
        "frobnicate" Json.null).error.isSome = true) ∧
     (isMcpTool [] "frobnicate" = false → builtinFor (jsToLower "frobnicate") = none →
      executeTool [] (fun _ _ _ => Except.error "remote down")
          (fun _ _ => Except.ok ⟨false, "", some "disk full"⟩)
          "frobnicate" Json.null =
        ⟨false, "", some (unknownToolMessage "frobnicate" [])⟩ ∧
      ∃ suffix,
        unknownToolMessage "frobnicate" [] =
          "Unknown tool: " ++ "frobnicate" ++
            ". Built-in tools: Read, Write, Edit, Bash, Glob, Grep, List. MCP tools: " ++
            suffix ∧
        (getAllTools [] = [] → suffix = "none configured") ∧
        (String.intercalate ", " ((getAllTools []).map fun p => p.2.name) ≠ "" →
          suffix = String.intercalate ", " ((getAllTools []).map fun p => p.2.name)))) :=
  ⟨fun _ _ r h hf => by cases h; rfl,
    executeTool_never_throws_unknown_listing [] (fun _ _ _ => Except.error "remote down")
      (fun _ _ => Except.ok ⟨false, "", some "disk full"⟩) "frobnicate" Json.null
      (fun _ _ r h hf => by cases h; rfl)⟩

/-! ## Streaming completion loop: tool-call argument parsing -/

/-- A validated tool call accumulated from streamed deltas (`id` and `name`
nonempty, `arguments` the concatenated fragments). -/
structure StreamToolCall where
  id : String
  name : String
  arguments : String
deriving DecidableEq, Repr

/-- An event yielded to the caller during a turn. -/
inductive TurnEvent where
  | assistantText (text : String)
  | toolUse (id name : String) (input : Json)
  | errorEvent (msg : String)
  | resultEvent (result : String)

/-- `JSON.parse(tc.arguments)` wrapped in the source's try/catch: on parse
failure the input becomes `{raw: tc.arguments}`. The parser itself is the
platform's `JSON.parse`, abstracted as the oracle `parse`. -/
def parsedInputOf (parse : String → Option Json) (args : String) : Json :=
  match parse args with
  | some v => v
  | none => Json.obj [("raw", Json.str args)]

/-- What processing one validated tool call produces: the `tool_use` event
yielded to the caller, the input dispatched to `executeTool`, and the
`tool`-role message appended to the history. The source's loop body has no
terminating branch for a tool call, so the step always continues the
turn. -/
structure ToolCallStep where
  event : TurnEvent
  dispatched : Json
  toolMessage : WireMessage

/-- The per-tool-call processing of `executeQuery` (parse arguments with
raw fallback, yield the `tool_use` event, dispatch to the executor, append
the `tool` message with the result text or an `Error:` prefix). -/
def processToolCall (parse : String → Option Json) (conns : Connections)
    (remote : String → String → Json → Except String (List ContentBlock))
    (builtins : BuiltinKind → Json → Except String ToolResult)
    (tc : StreamToolCall) : ToolCallStep :=
  let parsedInput := parsedInputOf parse tc.arguments
  let result := executeTool conns remote builtins tc.name parsedInput
  let resultText := if result.success then result.output
    else "Error: " ++ result.error.getD "undefined"
  ⟨.toolUse tc.id tc.name parsedInput, parsedInput, ⟨"tool", resultText, some tc.id⟩⟩

/-- C7: when the accumulated `argumentsJSON` fails to parse, the dispatched
input is `{raw: argumentsJSON}`; when it parses, the parsed value is
dispatched; in both cases the step yields the ordinary `tool_use` event
(never an error event) and appends a `tool`-role message answering the
call's id — the parse failure never terminates the turn. -/
theorem toolcall_arguments_parse_fallback (parse : String → Option Json)
    (conns : Connections)
    (remote : String → String → Json → Except String (List ContentBlock))
    (builtins : BuiltinKind → Json → Except String ToolResult)
    (tc : StreamToolCall) :
    (parse tc.arguments = none →
      (processToolCall parse conns remote builtins tc).dispatched =
        Json.obj [("raw", Json.str tc.arguments)]) ∧
    (∀ v, parse tc.arguments = some v →
      (processToolCall parse conns remote builtins tc).dispatched = v) ∧
    (processToolCall parse conns remote builtins tc).event =
      .toolUse tc.id tc.name ((processToolCall parse conns remote builtins tc).dispatched) ∧
    (processToolCall parse conns remote builtins tc).toolMessage.role = "tool" ∧
    (processToolCall parse conns remote builtins tc).toolMessage.tool_call_id = some tc.id := by
  refine ⟨?_, ?_, rfl, rfl, rfl⟩
  · intro h
    show parsedInputOf parse tc.arguments = _
    unfold parsedInputOf
    rw [h]
  · intro v h
    show parsedInputOf parse tc.arguments = _
    unfold parsedInputOf
    rw [h]

/-- C7 witness: the theorem applied to a parser rejecting everything and a
tool call whose accumulated arguments are the invalid fragment. -/
theorem toolcall_arguments_parse_fallback_witness :
    ((fun _ : String => (none : Option Json)) "\x7b\"a\":" = none) ∧
    (processToolCall (fun _ => none) [] (fun _ _ _ => Except.error "remote down")
        (fun _ _ => Except.ok ⟨true, "ok", none⟩)
        ⟨"call_1", "read", "\x7b\"a\":"⟩).dispatched =
      Json.obj [("raw", Json.str "\x7b\"a\":")] :=
  ⟨rfl,
    (toolcall_arguments_parse_fallback (fun _ => none) []
      (fun _ _ _ => Except.error "remote down")
      (fun _ _ => Except.ok ⟨true, "ok", none⟩)
      ⟨"call_1", "read", "\x7b\"a\":"⟩).1 rfl⟩

/-! ## MCP connection manager: transports, connect, initialize -/

/-- A server configuration (`MCPServerConfig`): the transport kind and the
fields the transports need. -/
structure MCPServerConfig where
  type : Option String
  url : Option String
  command : Option String
deriving DecidableEq, Repr

/-- A created transport handle. -/
inductive Transport where
  | sse (url : String)
  | http (url : String)
  | stdio (command : String)
deriving DecidableEq, Repr

/-- `createTransport`: `sse` and `http` require a (truthy) `url`, anything
else takes the stdio default requiring a (truthy) `command`; a missing
field throws (`Except.error`). A `new URL` failure on a malformed URL also
throws; it is subsumed into the connect outcome oracle below, and either
way the exception is caught by `doConnect`. -/
def createTransport (config : MCPServerConfig) : Except String Transport :=
  if config.type = some "sse" then
    if jsFalsy config.url then .error "SSE server requires URL"
    else .ok (.sse (config.url.getD ""))
  else if config.type = some "http" then
    if jsFalsy config.url then .error "HTTP server requires URL"
    else .ok (.http (config.url.getD ""))
  else
    if jsFalsy config.command then .error "Stdio server requires command"
    else .ok (.stdio (config.command.getD ""))

/-- Outcome of the connect-and-list-tools phase against a real server:
the tools listed on success, or the message of the rejection/timeout
(both `Promise.race` timeouts reject into the same catch). -/
inductive ConnectOutcome where
  | ok (tools : List ToolInfo)
  | fail (msg : String)

/-- `doConnect`: create the transport, connect and list tools (the network
phase is the oracle `env`), store the connection in the map; the enclosing
try/catch returns `null` (`none`) on any failure instead of throwing. -/
def doConnect (env : String → ConnectOutcome) (conns : Connections)
    (name : String) (config : MCPServerConfig) : Connections × Option MCPConnection :=
  match createTransport config with
  | .error _ => (conns, none)
  | .ok _ =>
    match env name with
    | .fail _ => (conns, none)
    | .ok tools => (setBy conns name ⟨tools⟩, some ⟨tools⟩)

/-- Whether a single server's connect succeeds and with which tools:
transport creation must not throw and the connect/list-tools phase must
succeed. This mirrors `doConnect` without the state so the initialization
theorem can state that each name's catalog entry depends only on its own
config and outcome. -/
def connectSucceeds (env : String → ConnectOutcome) (name : String)
    (config : MCPServerConfig) : Option (List ToolInfo) :=
  match createTransport config with
  | .error _ => none
  | .ok _ =>
    match env name with
    | .fail _ => none
    | .ok tools => some tools

/-- One `connect` call as it behaves inside `initialize` (modelled
sequentially: when every configured name is distinct, each per-name connect
is independent, the in-flight map is empty at each call, and only the
already-connected check remains before `doConnect`). -/
def connectSeq (env : String → ConnectOutcome) (conns : Connections)
    (name : String) (config : MCPServerConfig) : Connections × Option MCPConnection :=
  match lookupBy conns name with
  | some c => (conns, some c)
  | none => doConnect env conns name config

/-- `initialize`: connect every configured server; `Promise.all` over
independent per-name connects is modelled as a fold. Failures are absorbed
by `doConnect`, so the fold is total — `initialize` never rejects. -/
def initializeServers (env : String → ConnectOutcome) (conns : Connections) :
    List (String × MCPServerConfig) → Connections
  | [] => conns
  | (name, config) :: rest =>
    initializeServers env (connectSeq env conns name config).1 rest

/-- `doConnect` written through `connectSucceeds`. -/
theorem doConnect_eq (env : String → ConnectOutcome) (conns : Connections)
    (name : String) (config : MCPServerConfig) :
    doConnect env conns name config =
      match connectSucceeds env name config with
      | some tools => (setBy conns name ⟨tools⟩, some ⟨tools⟩)
      | none => (conns, none) := by
  unfold doConnect connectSucceeds
  cases createTransport config with
  | error e => rfl
  | ok t =>
    cases env name with
    | fail m => rfl
    | ok tools => rfl

/-- A `connectSeq` for a different name does not change what `lookupBy`
finds for `name`. -/
theorem lookupBy_connectSeq_other (env : String → ConnectOutcome)
    (conns : Connections) (m name : String) (config : MCPServerConfig)
    (hne : m ≠ name) :
    lookupBy (connectSeq env conns m config).1 name = lookupBy conns name := by
  unfold connectSeq
  cases lookupBy conns m with
  | some c => rfl
  | none =>
    rw [doConnect_eq]
    cases connectSucceeds env m config with
    | none => rfl
    | some tools =>
      show lookupBy (setBy conns m ⟨tools⟩) name = _
      rw [lookupBy_setBy, if_neg hne]

/-- Initialization over names not including `name` preserves `name`'s
entry. -/
theorem lookupBy_initializeServers_not_mem (env : String → ConnectOutcome) :
    ∀ (configs : List (String × MCPServerConfig)) (conns : Connections) (name : String),
      name ∉ configs.map Prod.fst →
      lookupBy (initializeServers env conns configs) name = lookupBy conns name := by
  intro configs
  induction configs with
  | nil => intro conns name _; rfl
  | cons p rest ih =>
    obtain ⟨m, config⟩ := p
    intro conns name hnm
    simp only [List.map_cons, List.mem_cons, not_or] at hnm
    show lookupBy (initializeServers env (connectSeq env conns m config).1 rest) name = _
    rw [ih _ name hnm.2, lookupBy_connectSeq_other env conns m name config
      (fun e => hnm.1 e.symm)]

/-- C8: with all configured names distinct, `initialize` (a total function:
it never rejects) gives every configured server an outcome that depends
only on its own config and connect result: a transport-creation error or a
connect/list-tools failure or timeout makes `doConnect` return the
unchanged state and a null connection (never an exception) and leaves that
name absent from the catalog, while a succeeding server ends up in the
catalog with its listed tools — regardless of how every other server
fares. -/
theorem initializeServers_isolates_failures (env : String → ConnectOutcome)
    (configs : List (String × MCPServerConfig)) (name : String)
    (config : MCPServerConfig)
    (hnodup : (configs.map Prod.fst).Nodup) (hmem : (name, config) ∈ configs) :
    (∀ conns, connectSucceeds env name config = none →
      doConnect env conns name config = (conns, none)) ∧
    lookupBy (initializeServers env [] configs) name =
      (connectSucceeds env name config).map fun tools => (⟨tools⟩ : MCPConnection) := by
  constructor
  · intro conns hcs
    rw [doConnect_eq, hcs]
  · have main : ∀ (cfgs : List (String × MCPServerConfig)) (conns : Connections),
        (cfgs.map Prod.fst).Nodup → (name, config) ∈ cfgs →
        lookupBy conns name = none →
        lookupBy (initializeServers env conns cfgs) name =
          (connectSucceeds env name config).map fun tools => (⟨tools⟩ : MCPConnection) := by
      intro cfgs
      induction cfgs with
      | nil => intro conns _ hmem0 _; exact absurd hmem0 (List.not_mem_nil _)
      | cons p rest ih =>
        obtain ⟨m, cfg0⟩ := p
        intro conns hnd hmem0 hnone
        simp only [List.map_cons, List.nodup_cons] at hnd
        rcases List.mem_cons.mp hmem0 with heq | htail
        · obtain ⟨hm, hc⟩ := Prod.mk.injEq .. ▸ heq
          subst hm
          subst hc
          show lookupBy (initializeServers env (connectSeq env conns name config).1 rest)
            name = _
          rw [lookupBy_initializeServers_not_mem env rest _ name hnd.1]
          unfold connectSeq
          rw [hnone, doConnect_eq]
          cases connectSucceeds env name config with
          | none => exact hnone
          | some tools =>
            show lookupBy (setBy conns name ⟨tools⟩) name = _
            rw [lookupBy_setBy, if_pos rfl]
            rfl
        · have hmname : m ≠ name := by
            intro e
            subst e
            exact hnd.1 (List.mem_map_of_mem Prod.fst htail)
          show lookupBy (initializeServers env (connectSeq env conns m cfg0).1 rest)
            name = _
          refine ih _ hnd.2 htail ?_
          rw [lookupBy_connectSeq_other env conns m name cfg0 hmname, hnone]
    exact main configs [] hnodup hmem rfl

/-- A sample environment: server `alpha` lists one tool, everything else
fails to connect. -/
def sampleEnv : String → ConnectOutcome := fun n =>
  if n = "alpha" then .ok [⟨"toolA", none⟩] else .fail "connect timed out"

/-- A sample configuration: a healthy stdio server and an SSE server whose
transport creation throws for want of a URL. -/
def sampleConfigs : List (String × MCPServerConfig) :=
  [("alpha", ⟨none, none, some "run-alpha"⟩), ("broken", ⟨some "sse", none, none⟩)]

/-- C8 witness: the theorem applied to the sample configuration at the
healthy server `alpha`, whose catalog entry is unaffected by the broken
sibling. -/
theorem initializeServers_isolates_failures_witness :
    ((sampleConfigs.map Prod.fst).Nodup ∧
      ("alpha", (⟨none, none, some "run-alpha"⟩ : MCPServerConfig)) ∈ sampleConfigs) ∧
    ((∀ conns, connectSucceeds sampleEnv "alpha" ⟨none, none, some "run-alpha"⟩ = none →
        doConnect sampleEnv conns "alpha" ⟨none, none, some "run-alpha"⟩ = (conns, none)) ∧
      lookupBy (initializeServers sampleEnv [] sampleConfigs) "alpha" =
        (connectSucceeds sampleEnv "alpha" ⟨none, none, some "run-alpha"⟩).map
          fun tools => (⟨tools⟩ : MCPConnection)) :=
  ⟨⟨by decide, by decide⟩,
    initializeServers_isolates_failures sampleEnv sampleConfigs "alpha"
      ⟨none, none, some "run-alpha"⟩ (by decide) (by decide)⟩

/-! ## MCP connection manager: in-flight connect deduplication -/

/-- Manager state for the dedup argument: the connection map, the in-flight
promise map (`connecting`), a fresh-promise counter, and the record of
`doConnect` launches (each one underlying connection attempt). -/
structure MgrState where
  connections : Connections
  connecting : List (String × Nat)
  nextPromise : Nat
  launches : List (String × Nat)
deriving DecidableEq, Repr

/-- What `connect(name, config)` returns from its synchronous prefix. -/
inductive ConnectRet where
  | inFlight (pid : Nat)
  | connected (c : MCPConnection)
  | launched (pid : Nat)
deriving DecidableEq, Repr

/-- The synchronous prefix of `connect(name, config)`: check the in-flight
map, then the connection map, otherwise start `doConnect` (recorded as a
launch with a fresh promise id) and store the promise in the in-flight map.
Under the JavaScript run-to-completion model this prefix is atomic:
`doConnect` suspends at its first `await` before changing any state, and
`connecting.set` runs before control can pass to another caller. -/
def connectPhase (st : MgrState) (name : String) : MgrState × ConnectRet :=
  match lookupBy st.connecting name with
  | some pid => (st, .inFlight pid)
  | none =>
    match lookupBy st.connections name with
    | some c => (st, .connected c)
    | none =>
      let pid := st.nextPromise
      (⟨st.connections, setBy st.connecting name pid, pid + 1,
        st.launches ++ [(name, pid)]⟩, .launched pid)

/-- C9: for a name that is neither connected nor connecting, the first
`connect` launches exactly one `doConnect` under a fresh promise and a
second concurrent `connect` for the same name returns that same in-flight
promise without changing state or launching anything — both callers await
the same promise and so observe the same result; and for an
already-connected name, `connect` returns the existing connection
unchanged. -/
theorem connect_inflight_dedup (st : MgrState) (name : String) :
    (lookupBy st.connecting name = none → lookupBy st.connections name = none →
      (connectPhase st name).2 = .launched st.nextPromise ∧
      (connectPhase (connectPhase st name).1 name).2 = .inFlight st.nextPromise ∧
      (connectPhase (connectPhase st name).1 name).1 = (connectPhase st name).1 ∧
      (connectPhase st name).1.launches = st.launches ++ [(name, st.nextPromise)] ∧
      (connectPhase (connectPhase st name).1 name).1.launches =
        st.launches ++ [(name, st.nextPromise)]) ∧
    (∀ c, lookupBy st.connecting name = none → lookupBy st.connections name = some c →
      connectPhase st name = (st, .connected c)) := by
  constructor
  · intro h1 h2
    have hfirst : connectPhase st name =
        (⟨st.connections, setBy st.connecting name st.nextPromise, st.nextPromise + 1,
          st.launches ++ [(name, st.nextPromise)]⟩, .launched st.nextPromise) := by
      unfold connectPhase
      rw [h1, h2]
    have hsecond : connectPhase (connectPhase st name).1 name =
        ((connectPhase st name).1, .inFlight st.nextPromise) := by
      rw [hfirst]
      unfold connectPhase
      rw [show lookupBy (setBy st.connecting name st.nextPromise) name =
        some st.nextPromise by rw [lookupBy_setBy, if_pos rfl]]
    refine ⟨by rw [hfirst], by rw [hsecond], by rw [hsecond], by rw [hfirst], ?_⟩
    rw [hsecond, hfirst]
  · intro c h1 h2
    unfold connectPhase
    rw [h1, h2]

/-- The empty manager state. -/
def mgrState0 : MgrState := ⟨[], [], 0, []⟩

/-- C9 witness: the theorem applied to the empty manager and the name
`srv`: the first call launches promise 0, the second call observes it in
flight. -/
theorem connect_inflight_dedup_witness :
    (lookupBy mgrState0.connecting "srv" = none ∧
      lookupBy mgrState0.connections "srv" = none) ∧
    ((connectPhase mgrState0 "srv").2 = .launched 0 ∧
      (connectPhase (connectPhase mgrState0 "srv").1 "srv").2 = .inFlight 0 ∧
      (connectPhase (connectPhase mgrState0 "srv").1 "srv").1 =
        (connectPhase mgrState0 "srv").1 ∧
      (connectPhase mgrState0 "srv").1.launches = [("srv", 0)] ∧
      (connectPhase (connectPhase mgrState0 "srv").1 "srv").1.launches = [("srv", 0)]) :=
  ⟨⟨rfl, rfl⟩, (connect_inflight_dedup mgrState0 "srv").1 rfl rfl⟩

end AutomakerZ
